import Mathlib

/-!
# Verification of the `discord.ext.duck` error manager

Shallow embedding of `src/discord/ext/duck/errors/manager.py` (class
`ErrorManager`), the error-reporting aggregator of the repository.

Modelling conventions:
* timestamps (`datetime.datetime`) are integers counting seconds;
* exception objects are opaque identifiers (`Nat`);
* Python `dict` (which preserves insertion order) is an association list;
* `asyncio` cooperative scheduling with the single `asyncio.Lock` is a
  serialized step relation: calls enter the critical section one after the
  other, and `asyncio.sleep` advances the wall clock of the task holding
  the lock (a negative duration returns immediately, as in CPython).
-/

namespace ExtDuck

/-- One recorded occurrence of a failure, mirroring `TracebackData`
(`manager.py` lines 22-34): `time` and the exception are always present,
the `author`/`guild`/`channel`/`command`/`item` keys are optional
(`_TracebackOptional`, `total=False`, so `packet.get` may return `None`).
A UI item is modelled by the pair (`str(item)`, `str(item.view)`). -/
structure TracebackData where
  time : Int
  exceptionId : Nat
  author : Option Nat
  guild : Option Nat
  channel : Option Nat
  command : Option String
  item : Option (String × String)
deriving Repr, DecidableEq

/-- The optional invocation context passed to `add_error`
(`manager.py` line 269): a `commands.Context`, a `discord.Interaction`,
or `None`.  Each context carries the fields `add_error` reads from it;
`messageCreatedAt` is `ctx.message.created_at` when `ctx.message` exists. -/
inductive CtxLike where
  | noCtx : CtxLike
  | context (command : Option String) (authorId : Nat) (guildId : Option Nat)
      (channelId : Nat) (messageCreatedAt : Option Int) : CtxLike
  | interaction (command : Option String) (userId : Nat) (guildId : Option Nat)
      (channelId : Option Nat) (messageCreatedAt : Option Int) : CtxLike
deriving Repr, DecidableEq

/-- Python truthiness of `(ctx.guild and ctx.guild.id) or None`
(`manager.py` lines 295 and 303): a guild object is always truthy, an id
of `0` is falsy and collapses to `None`. -/
def truthyId : Option Nat → Option Nat
  | none => none
  | some n => if n = 0 then none else some n

/-- `packet["time"]` (`manager.py` line 287):
`ctx and ctx.message and ctx.message.created_at or discord.utils.utcnow()`. -/
def packetTime (now : Int) : CtxLike → Int
  | CtxLike.noCtx => now
  | CtxLike.context _ _ _ _ m => m.getD now
  | CtxLike.interaction _ _ _ _ m => m.getD now

/-- The packet built by `add_error` (`manager.py` lines 286-305).

For a `commands.Context` the `addons` dict is merged into the packet via
`packet.update(addons)` (line 298).  For a `discord.Interaction` the source
builds the `addons` dict (lines 300-305) but never calls
`packet.update(addons)`, so the packet keeps only `time` and `exception`.
The `item` parameter of `add_error` is likewise never stored. -/
def add_error_packet (now : Int) (exceptionId : Nat) (ctx : CtxLike) : TracebackData :=
  let base : TracebackData :=
    { time := packetTime now ctx
      exceptionId := exceptionId
      author := none
      guild := none
      channel := none
      command := none
      item := none }
  match ctx with
  | CtxLike.noCtx => base
  | CtxLike.context cmd a g c _ =>
      { base with
        command := cmd
        author := some a
        guild := truthyId g
        channel := some c }
  | CtxLike.interaction _ _ _ _ _ => base

/-- The per-manager delivery-scheduler state: `_most_recent`
(`manager.py` line 124) together with the wall-clock instant at which the
previous critical section released the lock (initially the start time). -/
structure SchedulerState where
  mostRecent : Option Int
  now : Int
deriving Repr, DecidableEq

/-- One `add_error` critical section (`manager.py` lines 317-339), for a
call whose packet timestamp is `ptime` and which reaches the lock at wall
time `arrival`.  The lock makes the section start at
`max arrival state.now`; `discord.utils.utcnow()` evaluates to the current
wall clock.  Returns the new state and the wall time of the delivery
(`release_error` call).

* no prior send: set `_most_recent = utcnow()`, release immediately;
* `time_between = packet["time"] - _most_recent > cooldown`: set
  `_most_recent = utcnow()`, release immediately;
* else `await asyncio.sleep(time_between.total_seconds())` — the source
  sleeps the *elapsed* duration itself (a negative value returns at once),
  then sets `_most_recent = utcnow()` and releases. -/
def add_error_schedule (cooldown : Int) (state : SchedulerState)
    (arrival ptime : Int) : SchedulerState × Int :=
  let enter := max arrival state.now
  match state.mostRecent with
  | none => (⟨some enter, enter⟩, enter)
  | some mostRecent =>
      let timeBetween := ptime - mostRecent
      if timeBetween > cooldown then
        (⟨some enter, enter⟩, enter)
      else
        let deliver := enter + max 0 timeBetween
        (⟨some deliver, deliver⟩, deliver)

/-- Run a sequence of `add_error` calls through the scheduler, starting
with no prior send at wall time 0.  Each call is given as
(arrival wall time, packet timestamp); the result is the list of delivery
wall times, in order (the lock serializes the calls in arrival order). -/
def runSchedule (cooldown : Int) (state : SchedulerState) :
    List (Int × Int) → List Int
  | [] => []
  | (arrival, ptime) :: rest =>
      let step := add_error_schedule cooldown state arrival ptime
      step.2 :: runSchedule cooldown step.1 rest

/-- Delivery times of a burst of `add_error` calls (packet time equals
arrival time, as for an error with no context message: `packet["time"]`
is `utcnow()` at call time). -/
def runTrace (cooldown : Int) (calls : List (Int × Int)) : List Int :=
  runSchedule cooldown ⟨none, 0⟩ calls

/-- The normalized failure signature (`manager.py` lines 307-309): the
rendered traceback text with every occurrence of the working directory
(`os.getcwd()`) replaced by the placeholder `"CWD"`. -/
def traceback_key (rendered cwd : String) : String :=
  rendered.replace cwd "CWD"

/-- The `ErrorManager.errors` mapping (`manager.py` line 126),
`Dict[str, List[TracebackData]]`.  A Python dict preserves insertion
order, so it is an association list; assigning to an absent key appends
a new entry at the end, assigning to a present key updates it in place. -/
abbrev ErrorsMap := List (String × List TracebackData)

/-- `self.errors.get(traceback_string)` (`manager.py` line 310). -/
def lookupErrors : ErrorsMap → String → Option (List TracebackData)
  | [], _ => none
  | (k, v) :: rest, key => if k = key then some v else lookupErrors rest key

/-- The cache update of `add_error` (`manager.py` lines 310-315):
`current = self.errors.get(key)`; `if current:` (truthy: present and
non-empty) append the packet, `else` assign `[packet]` — updating the
entry in place when the key is present, appending a new entry otherwise. -/
def add_error_record (errors : ErrorsMap) (key : String) (p : TracebackData) :
    ErrorsMap :=
  match errors with
  | [] => [(key, [p])]
  | (k, v) :: rest =>
      if k = key then
        (k, if v = [] then [p] else v ++ [p]) :: rest
      else
        (k, v) :: add_error_record rest key p

/-- All packets recorded for a signature (empty when the signature is
absent from the mapping). -/
def packetsFor (errors : ErrorsMap) (key : String) : List TracebackData :=
  (lookupErrors errors key).getD []

/-- Run a sequence of `add_error` cache updates against an initially empty
`errors` mapping; each submission is (rendered traceback text, packet) and
is keyed by its normalized signature. -/
def runStore (cwd : String) (subs : List (String × TracebackData)) : ErrorsMap :=
  subs.foldl (fun e s => add_error_record e (traceback_key s.1 cwd) s.2) []

/-! ## Framework bridge: `bot_command_error` (`manager.py` lines 139-157) -/

/-- The classes of `commands.CommandError` the bridge distinguishes:
`commands.NotOwner`, `commands.CommandNotFound`,
`commands.CommandInvokeError`, and any other subclass.  `isinstance`
checks on these mutually non-overlapping classes compare this kind. -/
inductive ErrorKind where
  | notOwner : ErrorKind
  | commandNotFound : ErrorKind
  | commandInvokeError : ErrorKind
  | otherError : ErrorKind
deriving Repr, DecidableEq

/-- A `commands.CommandError` instance.  Every instance has an identity;
a `CommandInvokeError` additionally wraps `error.original`. -/
inductive CmdError where
  | notOwner (id : Nat) : CmdError
  | commandNotFound (id : Nat) : CmdError
  | commandInvokeError (id : Nat) (original : Nat) : CmdError
  | otherError (id : Nat) (text : String) : CmdError
deriving Repr, DecidableEq

/-- The class of an error instance. -/
def kindOf : CmdError → ErrorKind
  | CmdError.notOwner _ => ErrorKind.notOwner
  | CmdError.commandNotFound _ => ErrorKind.commandNotFound
  | CmdError.commandInvokeError _ _ => ErrorKind.commandInvokeError
  | CmdError.otherError _ _ => ErrorKind.otherError

/-- `str(error)` for the fall-through reply (`manager.py` line 157). -/
def errText : CmdError → String
  | CmdError.notOwner i => "NotOwner " ++ toString i
  | CmdError.commandNotFound i => "CommandNotFound " ++ toString i
  | CmdError.commandInvokeError i o => "CommandInvokeError " ++ toString i ++ " " ++ toString o
  | CmdError.otherError _ t => t

/-- `CommandErrorSettings` (`manager.py` lines 37-43); the default
`ignored_errors` are `commands.NotOwner` and `commands.CommandNotFound`. -/
structure CommandErrorSettings where
  hijack : Bool
  ignored_errors : List ErrorKind
  check_for_local_error_handlers : Bool
deriving Repr, DecidableEq

/-- The default `CommandErrorSettings` field values. -/
def defaultIgnoredErrors : List ErrorKind :=
  [ErrorKind.notOwner, ErrorKind.commandNotFound]

/-- The local-error-handler facts `bot_command_error` queries
(`manager.py` lines 141-150): whether
`ctx.bot.extra_events.get("on_command_error")` is truthy, whether
`ctx.command` exists and `command.has_error_handler()`, and whether
`ctx.cog` exists and `cog.has_error_handler()`. -/
structure LocalHandlers where
  extraOnCommandError : Bool
  commandHasHandler : Bool
  cogHasHandler : Bool
deriving Repr, DecidableEq

/-- What `bot_command_error` does with an error: return without acting,
escalate an exception to `add_error`, or reply `str(error)` to the
invocation context. -/
inductive OCEAction where
  | noAction : OCEAction
  | escalate (exceptionId : Nat) : OCEAction
  | ctxSend (text : String) : OCEAction
deriving Repr, DecidableEq

/-- `ErrorManager.bot_command_error` (`manager.py` lines 139-157):
optionally defer to more-local handlers (three early returns), then drop
errors whose class is in `ignored_errors`, then unwrap and escalate a
`CommandInvokeError`'s `error.original`, otherwise reply `str(error)`. -/
def bot_command_error (settings : CommandErrorSettings) (hs : LocalHandlers)
    (error : CmdError) : OCEAction :=
  if settings.check_for_local_error_handlers &&
      (hs.extraOnCommandError || hs.commandHasHandler || hs.cogHasHandler) then
    OCEAction.noAction
  else if kindOf error ∈ settings.ignored_errors then
    OCEAction.noAction
  else
    match error with
    | CmdError.commandInvokeError _ original => OCEAction.escalate original
    | e => OCEAction.ctxSend (errText e)

/-! ## Sink formatter: chunking and `release_error`
(`manager.py` lines 164-263).  Message text is modelled as `List Char`. -/

/-- `self.code_blocker` (`manager.py` line 127): the Python format
template with braces escaped. -/
def code_blocker : String := "```py\n\x7b\x7d```"

/-- The default `chunksize` of `_yield_code_chunks` (line 164). -/
def chunksize : Nat := 2000

/-- `cbs = len(self.code_blocker) - 2` (line 165): the size of the
code-block markers surrounding the chunk (the template minus its two
placeholder characters). -/
def cbs : Nat := code_blocker.length - 2

/-- `self.code_blocker.format(content)`: the chunk wrapped in the
code-block markers. -/
def formatCodeBlocker (content : List Char) : List Char :=
  "```py\n".toList ++ content ++ "```".toList

/-- Split a list into consecutive slices of `step` elements
(`iterable[i : i + step]` for `i in range(0, len(iterable), step)`,
`manager.py` lines 167-168; the source only ever uses
`step = chunksize - cbs ≥ 1`).  Structural recursion on a fuel argument;
each round consumes at least one element, so `fuel = l.length` (as used
by `chunkEvery`) always suffices and the zero-fuel branch is
unreachable. -/
def chunkEveryFuel (step : Nat) : Nat → List α → List (List α)
  | _, [] => []
  | 0, _ :: _ => []
  | fuel + 1, x :: xs =>
      (x :: xs.take (step - 1)) :: chunkEveryFuel step fuel (xs.drop (step - 1))

/-- Split a list into consecutive slices of `step` elements. -/
def chunkEvery (step : Nat) (l : List α) : List (List α) :=
  chunkEveryFuel step l.length l

/-- `ErrorManager._yield_code_chunks` (lines 164-168) at the default
`chunksize`: slices of `chunksize - cbs` characters, each wrapped in the
code-block markers. -/
def yield_code_chunks (s : List Char) : List (List Char) :=
  (chunkEvery (chunksize - cbs) s).map formatCodeBlocker

/-- The follow-up embed loop of `release_error` (lines 250-263): each
remaining chunk is appended to the pending `embeds` list, which is sent
and reset whenever it reaches 10 embeds, with a final send for a
non-empty remainder.  Returns the batches in send order. -/
def batchLoop : List (List Char) → List (List Char) → List (List (List Char))
  | [], acc => if acc.isEmpty then [] else [acc]
  | c :: rest, acc =>
      let acc2 := acc ++ [c]
      if acc2.length = 10 then acc2 :: batchLoop rest []
      else batchLoop rest acc2

/-- A guild known to the bot: `guild.name`, its channels
(id ↦ `channel.name`) and members (id ↦ `str(member)`). -/
structure GuildInfo where
  name : String
  channels : List (Nat × String)
  members : List (Nat × String)
deriving Repr, DecidableEq

/-- The resolution environment of `release_error`: the bot's guild cache
(`bot.get_guild`), user cache (`bot.get_user`), `bot.user` (`str` of it)
and `type(self.bot).__name__`. -/
structure BotModel where
  guilds : List (Nat × GuildInfo)
  users : List (Nat × String)
  botUserName : Option String
  className : String
deriving Repr, DecidableEq

/-- `self.bot.get_guild(guild_id)` where `guild_id` may be `None`
(`manager.py` lines 196-197); returns the guild id with its data. -/
def get_guild (bot : BotModel) : Option Nat → Option (Nat × GuildInfo)
  | none => none
  | some i => bot.guilds.find? (fun g => g.1 == i)

/-- Cache lookup by id (`guild.get_channel`, `guild.get_member`,
`bot.get_user`). -/
def lookupId (l : List (Nat × String)) (i : Nat) : Option String :=
  (l.find? (fun e => e.1 == i)).map (fun e => e.2)

/-- `f"<@{author}>"` (`manager.py` line 192). -/
def rawMention (a : Nat) : String := "<@" ++ toString a ++ ">"

/-- The `fmt` metadata mapping built by `release_error`
(lines 188-224): which of the `author`/`guild`/`channel`/`command` keys
are present and with what rendered value. -/
structure MetaFmt where
  time : Int
  author : Option String
  guild : Option String
  channel : Option String
  command : Option String
deriving Repr, DecidableEq

/-- Outcome of the metadata stage of `release_error`: the `fmt` mapping,
whether the unknown-guild warning was logged (line 201), and the
`display` phrase of the embed title (lines 218-224). -/
structure FmtResult where
  fmt : MetaFmt
  warnedUnknownGuild : Bool
  display : String
deriving Repr, DecidableEq

/-- The metadata stage of `release_error` (`manager.py` lines 188-224).

* line 191: `if author := packet.get("author")` (truthy: present, non-zero)
  sets the raw mention;
* lines 196-201: `guild = bot.get_guild(packet.get("guild"))`; resolved →
  `fmt["guild"] = f"{guild.name} ({guild.id})"`, else a warning is logged;
* lines 203-213, only under `if guild:`: resolve the channel
  (`f"{channel.name} - {channel.mention} - ({channel.id})"`) and upgrade
  the author via `guild.get_member(id) or bot.get_user(id)`;
* lines 215-216: if `fmt` still has no author but the packet has a truthy
  author id, an `<Unknown User>` placeholder;
* lines 218-224: the command/item/no-command display phrase. -/
def release_fmt (bot : BotModel) (packet : TracebackData) : FmtResult :=
  let author0 : Option String :=
    match packet.author with
    | some a => if a = 0 then none else some (rawMention a)
    | none => none
  let guild := get_guild bot packet.guild
  let guildFmt : Option String :=
    match guild with
    | some (gid, g) => some (g.name ++ " (" ++ toString gid ++ ")")
    | none => none
  let channelFmt : Option String :=
    match guild with
    | some (_, g) =>
        match packet.channel with
        | some c =>
            if c = 0 then none
            else
              match lookupId g.channels c with
              | some cname =>
                  some (cname ++ " - <#" ++ toString c ++ "> - (" ++ toString c ++ ")")
              | none => none
        | none => none
    | none => none
  let author1 : Option String :=
    match guild with
    | some (_, g) =>
        match packet.author with
        | some a =>
            if a = 0 then author0
            else
              match (lookupId g.members a).orElse (fun _ => lookupId bot.users a) with
              | some s =>
                  some (s ++ " - <@" ++ toString a ++ "> (" ++ toString a ++ ")")
              | none => author0
        | none => author0
    | none => author0
  let author2 : Option String :=
    match author1 with
    | some s => some s
    | none =>
        match packet.author with
        | some a =>
            if a = 0 then none
            else some ("<Unknown User> - <@" ++ toString a ++ "> (" ++ toString a ++ ")")
        | none => none
  let cd : Option String × String :=
    match packet.command with
    | some qn => (some qn, "in command \x22" ++ qn ++ "\x22")
    | none =>
        match packet.item with
        | some (istr, iview) => (none, "in Item " ++ istr ++ " of view " ++ iview)
        | none => (none, "in no command (" ++ bot.className ++ ")")
  { fmt :=
      { time := packet.time
        author := author2
        guild := guildFmt
        channel := channelFmt
        command := cd.1 }
    warnedUnknownGuild := guild.isNone
    display := cd.2 }

/-- The full observable outcome of one `release_error` call: the metadata,
the hardcoded `content` mention (line 239), the primary embed's
description (line 247) and the batched follow-up embed descriptions
(lines 250-263), in transmission order. -/
structure ReleaseResult where
  fmtResult : FmtResult
  content : String
  primaryDescription : List Char
  followupBatches : List (List (List Char))
deriving Repr, DecidableEq

/-- `ErrorManager.release_error` (`manager.py` lines 170-263) on a
traceback text and packet.  `code_chunks.pop(0)` raises `IndexError` on an
empty chunk list (empty traceback text), hence the `Option`. -/
def release_error (bot : BotModel) (tb : List Char) (packet : TracebackData) :
    Option ReleaseResult :=
  match yield_code_chunks tb with
  | [] => none
  | c :: rest =>
      some
        { fmtResult := release_fmt bot packet
          content := "<@349373972103561218>"
          primaryDescription := c
          followupBatches := batchLoop rest [] }

/-! ## The whole of `add_error` (`manager.py` lines 265-339) -/

/-- The mutable `ErrorManager` state `add_error` touches: the `errors`
cache and the scheduler (`_most_recent` plus the wall clock). -/
structure ManagerState where
  errors : ErrorsMap
  sched : SchedulerState
deriving Repr, DecidableEq

/-- One full `add_error` call (lines 284-339) for an already-rendered
traceback: record the packet in the `errors` cache (before the lock),
then run the scheduled release under the lock.  `sendOk` is whether the
webhook transport succeeds; the body has no `try`/`except`, so a
transport failure propagates (`Except.error`) after the cache update and
the `_most_recent` update already happened.  On success the returned
value is the delivery wall time. -/
def add_error_model (cooldown : Int) (sendOk : Bool) (st : ManagerState)
    (rendered cwd : String) (p : TracebackData) (arrival : Int) :
    ManagerState × Except Unit Int :=
  let key := traceback_key rendered cwd
  let errors2 := add_error_record st.errors key p
  let step := add_error_schedule cooldown st.sched arrival p.time
  (⟨errors2, step.1⟩, if sendOk then Except.ok step.2 else Except.error ())

/-! ## Lemmas about the `errors` cache -/

theorem lookup_add_self (e : ErrorsMap) (key : String) (p : TracebackData) :
    lookupErrors (add_error_record e key p) key = some (packetsFor e key ++ [p]) := by
  induction e with
  | nil => simp [add_error_record, lookupErrors, packetsFor]
  | cons kv rest ih =>
      obtain ⟨k, v⟩ := kv
      by_cases hk : k = key
      · subst hk
        by_cases hv : v = [] <;>
          simp [add_error_record, lookupErrors, packetsFor, hv]
      · simpa [add_error_record, lookupErrors, packetsFor, hk] using ih

theorem lookup_add_ne (e : ErrorsMap) (key : String) (p : TracebackData)
    (k' : String) (h : k' ≠ key) :
    lookupErrors (add_error_record e key p) k' = lookupErrors e k' := by
  induction e with
  | nil => simp [add_error_record, lookupErrors, Ne.symm h]
  | cons kv rest ih =>
      obtain ⟨k, v⟩ := kv
      by_cases hk : k = key
      · subst hk
        have hk2 : ¬k = k' := Ne.symm h
        simp [add_error_record, lookupErrors, hk2]
      · by_cases hkk : k = k'
        · subst hkk
          simp [add_error_record, lookupErrors, hk]
        · simp [add_error_record, lookupErrors, hk, hkk, ih]

theorem packetsFor_add_self (e : ErrorsMap) (key : String) (p : TracebackData) :
    packetsFor (add_error_record e key p) key = packetsFor e key ++ [p] := by
  simp [packetsFor, lookup_add_self]

theorem packetsFor_add_ne (e : ErrorsMap) (key : String) (p : TracebackData)
    (k' : String) (h : k' ≠ key) :
    packetsFor (add_error_record e key p) k' = packetsFor e k' := by
  simp [packetsFor, lookup_add_ne e key p k' h]

theorem keys_add (e : ErrorsMap) (key : String) (p : TracebackData) :
    (add_error_record e key p).map Prod.fst =
      if key ∈ e.map Prod.fst then e.map Prod.fst
      else e.map Prod.fst ++ [key] := by
  induction e with
  | nil => simp [add_error_record]
  | cons kv rest ih =>
      obtain ⟨k, v⟩ := kv
      by_cases hk : k = key
      · subst hk
        simp [add_error_record]
      · have hk2 : ¬key = k := fun hh => hk hh.symm
        by_cases hm : key ∈ rest.map Prod.fst <;>
          simp [add_error_record, hk, hk2, hm, ih]

theorem nodup_keys_add (e : ErrorsMap) (key : String) (p : TracebackData)
    (h : (e.map Prod.fst).Nodup) :
    ((add_error_record e key p).map Prod.fst).Nodup := by
  rw [keys_add]
  by_cases hm : key ∈ e.map Prod.fst
  · simpa [hm]
  · simp only [hm, if_false]
    exact List.Nodup.append h (List.nodup_singleton key)
      (by simpa [List.disjoint_singleton] using hm)

theorem packetsFor_foldl (keyf : String → String) (subs : List (String × TracebackData)) :
    ∀ (e : ErrorsMap) (k : String),
      packetsFor (subs.foldl (fun e s => add_error_record e (keyf s.1) s.2) e) k =
        packetsFor e k ++ (subs.filter (fun s => keyf s.1 == k)).map Prod.snd := by
  induction subs with
  | nil => intro e k; simp
  | cons s rest ih =>
      intro e k
      rw [List.foldl_cons, ih]
      by_cases hk : keyf s.1 = k
      · rw [List.filter_cons_of_pos (by simpa using hk)]
        rw [← hk, packetsFor_add_self]
        simp
      · rw [List.filter_cons_of_neg (by simpa using hk)]
        rw [packetsFor_add_ne _ _ _ _ (fun hh => hk hh.symm)]

theorem nodup_keys_foldl (keyf : String → String) (subs : List (String × TracebackData)) :
    ∀ (e : ErrorsMap), (e.map Prod.fst).Nodup →
      ((subs.foldl (fun e s => add_error_record e (keyf s.1) s.2) e).map Prod.fst).Nodup := by
  induction subs with
  | nil => intro e h; simpa
  | cons s rest ih =>
      intro e h
      exact ih _ (nodup_keys_add _ _ _ h)

/-! ## Lemmas about chunking and batching -/

theorem chunkEveryFuel_len (step : Nat) (hs : 0 < step) :
    ∀ (fuel : Nat) (l : List α), l.length ≤ fuel →
      (chunkEveryFuel step fuel l).length = (l.length + (step - 1)) / step := by
  obtain ⟨n, rfl⟩ : ∃ n, step = n + 1 := ⟨step - 1, by omega⟩
  intro fuel
  induction fuel with
  | zero =>
      intro l hl
      have hnil : l = [] := List.length_eq_zero.mp (Nat.le_zero.mp hl)
      subst hnil
      simp [chunkEveryFuel, Nat.div_eq_of_lt (Nat.lt_succ_self n)]
  | succ fuel ih =>
      intro l hl
      cases l with
      | nil => simp [chunkEveryFuel, Nat.div_eq_of_lt (Nat.lt_succ_self n)]
      | cons x xs =>
          have hlen : (xs.drop (n + 1 - 1)).length ≤ fuel := by
            simp only [List.length_cons] at hl
            simp only [List.length_drop]
            omega
          show ((x :: xs.take (n + 1 - 1)) ::
              chunkEveryFuel (n + 1) fuel (xs.drop (n + 1 - 1))).length = _
          rw [List.length_cons, ih _ hlen]
          simp only [List.length_drop, List.length_cons, Nat.add_sub_cancel]
          rcases Nat.le_total n xs.length with h | h
          · rw [Nat.sub_add_cancel h,
              show xs.length + 1 + n = xs.length + (n + 1) from by omega,
              Nat.add_div_right _ (Nat.succ_pos n)]
          · rw [Nat.sub_eq_zero_of_le h,
              show xs.length + 1 + n = xs.length + (n + 1) from by omega,
              Nat.add_div_right _ (Nat.succ_pos n), Nat.div_eq_of_lt (by omega),
              Nat.div_eq_of_lt (by omega)]

theorem chunkEvery_len (step : Nat) (hs : 0 < step) (l : List α) :
    (chunkEvery step l).length = (l.length + (step - 1)) / step :=
  chunkEveryFuel_len step hs l.length l (le_refl _)

theorem length_le_of_mem_chunkEveryFuel (step : Nat) (hs : 0 < step) :
    ∀ (fuel : Nat) (l c : List α), c ∈ chunkEveryFuel step fuel l → c.length ≤ step := by
  intro fuel
  induction fuel with
  | zero =>
      intro l c h
      cases l <;> simp [chunkEveryFuel] at h
  | succ fuel ih =>
      intro l c h
      cases l with
      | nil => simp [chunkEveryFuel] at h
      | cons x xs =>
          simp only [chunkEveryFuel, List.mem_cons] at h
          rcases h with rfl | h
          · simp only [List.length_cons]
            have := List.length_take_le (step - 1) xs
            omega
          · exact ih _ _ h

theorem length_le_of_mem_chunkEvery (step : Nat) (hs : 0 < step) (l c : List α)
    (h : c ∈ chunkEvery step l) : c.length ≤ step :=
  length_le_of_mem_chunkEveryFuel step hs l.length l c h

theorem formatCodeBlocker_len (c : List Char) :
    (formatCodeBlocker c).length = c.length + cbs := by
  have h1 : ("```py\n".toList).length = 6 := rfl
  have h2 : ("```".toList).length = 3 := rfl
  have h3 : cbs = 9 := by decide
  simp only [formatCodeBlocker, List.length_append, h1, h2, h3]
  omega

theorem yield_code_chunks_len (tb : List Char) :
    (yield_code_chunks tb).length =
      (tb.length + (chunksize - cbs - 1)) / (chunksize - cbs) := by
  simp only [yield_code_chunks, List.length_map]
  exact chunkEvery_len (chunksize - cbs) (by decide) tb

theorem yield_code_chunks_size (tb : List Char) :
    ∀ ch ∈ yield_code_chunks tb, ch.length ≤ chunksize := by
  intro ch h
  simp only [yield_code_chunks, List.mem_map] at h
  obtain ⟨c, hc, rfl⟩ := h
  have hle := length_le_of_mem_chunkEvery (chunksize - cbs) (by decide) _ _ hc
  rw [formatCodeBlocker_len]
  have h9 : cbs = 9 := by decide
  have h2000 : chunksize = 2000 := by decide
  omega

theorem yield_code_chunks_ne_nil (tb : List Char) (h : tb ≠ []) :
    yield_code_chunks tb ≠ [] := by
  cases tb with
  | nil => exact absurd rfl h
  | cons x xs => simp [yield_code_chunks, chunkEvery, chunkEveryFuel]

theorem batchLoop_flatten :
    ∀ (chunks acc : List (List Char)), (batchLoop chunks acc).flatten = acc ++ chunks := by
  intro chunks
  induction chunks with
  | nil => intro acc; cases acc <;> simp [batchLoop]
  | cons c rest ih =>
      intro acc
      simp only [batchLoop]
      by_cases h : (acc ++ [c]).length = 10
      · rw [if_pos h]
        simp [ih]
      · rw [if_neg h, ih]
        simp

theorem batchLoop_count :
    ∀ (chunks acc : List (List Char)), acc.length ≤ 9 →
      (batchLoop chunks acc).length = (chunks.length + acc.length + 9) / 10 := by
  intro chunks
  induction chunks with
  | nil =>
      intro acc h
      cases acc with
      | nil => simp [batchLoop]
      | cons a as =>
          have hb : batchLoop [] (a :: as) = [a :: as] := by simp [batchLoop]
          rw [hb]
          simp only [List.length_singleton, List.length_nil, List.length_cons] at h ⊢
          omega
  | cons c rest ih =>
      intro acc h
      simp only [batchLoop]
      by_cases h10 : (acc ++ [c]).length = 10
      · rw [if_pos h10]
        have h1 : (batchLoop rest []).length = (rest.length + 0 + 9) / 10 := by
          simpa using ih [] (by simp)
        simp only [List.length_cons, h1]
        simp only [List.length_append, List.length_singleton] at h10
        omega
      · rw [if_neg h10]
        have hle : (acc ++ [c]).length ≤ 9 := by
          simp only [List.length_append, List.length_singleton] at h10 ⊢
          omega
        rw [ih (acc ++ [c]) hle]
        simp only [List.length_append, List.length_singleton, List.length_cons,
          List.length_nil]
        omega

theorem batchLoop_size :
    ∀ (chunks acc : List (List Char)), acc.length ≤ 9 →
      ∀ b ∈ batchLoop chunks acc, b.length ≤ 10 := by
  intro chunks
  induction chunks with
  | nil =>
      intro acc h b hb
      cases acc with
      | nil => simp [batchLoop] at hb
      | cons a as =>
          simp only [batchLoop, List.isEmpty_cons, Bool.false_eq_true, if_false,
            List.mem_singleton] at hb
          subst hb
          exact h.trans (by omega)
  | cons c rest ih =>
      intro acc h b hb
      simp only [batchLoop] at hb
      by_cases h10 : (acc ++ [c]).length = 10
      · rw [if_pos h10] at hb
        rcases List.mem_cons.mp hb with rfl | hb
        · omega
        · exact ih [] (by simp) b hb
      · rw [if_neg h10] at hb
        exact ih (acc ++ [c])
          (by simp only [List.length_append, List.length_singleton] at h10 ⊢; omega) b hb

theorem release_error_eq (bot : BotModel) (tb : List Char) (packet : TracebackData)
    (c : List Char) (rest : List (List Char)) (h : yield_code_chunks tb = c :: rest) :
    release_error bot tb packet =
      some ⟨release_fmt bot packet, "<@349373972103561218>", c, batchLoop rest []⟩ := by
  simp [release_error, h]

/-! ## Lemmas about the metadata stage of `release_error` -/

theorem release_fmt_unknown_guild (bot : BotModel) (packet : TracebackData)
    (hg : get_guild bot packet.guild = none) :
    (release_fmt bot packet).fmt.guild = none ∧
    (release_fmt bot packet).warnedUnknownGuild = true ∧
    (release_fmt bot packet).fmt.channel = none := by
  simp [release_fmt, hg]

theorem release_fmt_unknown_guild_author (bot : BotModel) (packet : TracebackData)
    (a : Nat) (hg : get_guild bot packet.guild = none) (ha : packet.author = some a)
    (h0 : a ≠ 0) :
    (release_fmt bot packet).fmt.author = some (rawMention a) := by
  simp [release_fmt, hg, ha, h0]

theorem yield_code_chunks_cons (tb : List Char) (htb : tb ≠ []) :
    ∃ c rest, yield_code_chunks tb = c :: rest := by
  cases hy : yield_code_chunks tb with
  | nil => exact absurd hy (yield_code_chunks_ne_nil tb htb)
  | cons c rest => exact ⟨c, rest, rfl⟩

/-! ## The claims -/

/-- C1: the spec claims that for every sequence of `add_error` calls no two
deliveries occur less than `cooldown` apart.  The code violates this: the
scheduler sleeps `time_between.total_seconds()` — the time *already
elapsed* — instead of the time remaining until the cooldown expires
(`manager.py` line 336).  A burst of three errors raised at the same
instant with a 5-second cooldown is delivered entirely at time 0, with
zero spacing between consecutive deliveries. -/
theorem burst_deliveries_without_cooldown_spacing :
    runTrace 5 [(0, 0), (0, 0), (0, 0)] = [0, 0, 0] ∧ ¬(5 ≤ (0 : Int) - 0) := by
  decide

/-- C2: the spec's scenario says two errors submitted 1 second apart with a
5-second cooldown deliver 5 seconds apart.  In the code the waiting branch
sleeps `time_between` (1 s) rather than `cooldown - time_between` (4 s)
(`manager.py` line 336), so the second delivery happens at time 2 — two
seconds after the first, not five. -/
theorem second_delivery_not_cooldown_after_first :
    runTrace 5 [(0, 0), (1, 1)] = [0, 2] ∧ ((2 : Int) - 0 ≠ 5) := by
  decide

/-- C3: the claim says an interaction-style context populates the packet's
actor/scope/origin fields like a command-style context does.  In the code
the interaction branch builds the `addons` dict but never calls
`packet.update(addons)` (`manager.py` lines 299-305), so the stored packet
carries none of those fields, whatever the interaction holds. -/
theorem interaction_packet_loses_context_fields (now : Int) (excId : Nat)
    (cmd : Option String) (u : Nat) (g : Option Nat) (c : Option Nat)
    (m : Option Int) :
    (add_error_packet now excId (CtxLike.interaction cmd u g c m)).author = none ∧
    (add_error_packet now excId (CtxLike.interaction cmd u g c m)).guild = none ∧
    (add_error_packet now excId (CtxLike.interaction cmd u g c m)).channel = none ∧
    (add_error_packet now excId (CtxLike.interaction cmd u g c m)).command = none :=
  ⟨rfl, rfl, rfl, rfl⟩

/-- C4: errors whose normalized traceback texts are identical accumulate
under a single key of the `errors` mapping, the list under each key holds
its packets in submission order, and keys are never duplicated — for every
sequence of submissions, the packets stored under a signature `k` are
exactly the packets of the submissions normalizing to `k`, in order. -/
theorem errors_accumulate_in_insertion_order (cwd : String)
    (subs : List (String × TracebackData)) (k : String) :
    packetsFor (runStore cwd subs) k =
      (subs.filter (fun s => traceback_key s.1 cwd == k)).map Prod.snd ∧
    ((runStore cwd subs).map Prod.fst).Nodup := by
  constructor
  · have h := packetsFor_foldl (fun r => traceback_key r cwd) subs [] k
    simpa [runStore, packetsFor] using h
  · have h := nodup_keys_foldl (fun r => traceback_key r cwd) subs [] (by simp)
    simpa [runStore] using h

/-- C5: when `bot_command_error` receives a `commands.CommandInvokeError`
(and neither the local-handler deferral nor the ignore filter applies), it
escalates `error.original` — the unwrapped cause — to `add_error`, never
the wrapper object itself. -/
theorem invoke_error_escalates_original (settings : CommandErrorSettings)
    (hs : LocalHandlers) (wrapperId originalId : Nat)
    (hlocal : (settings.check_for_local_error_handlers &&
      (hs.extraOnCommandError || hs.commandHasHandler || hs.cogHasHandler)) = false)
    (hign : ErrorKind.commandInvokeError ∉ settings.ignored_errors) :
    bot_command_error settings hs (CmdError.commandInvokeError wrapperId originalId) =
      OCEAction.escalate originalId ∧
    (wrapperId ≠ originalId →
      bot_command_error settings hs (CmdError.commandInvokeError wrapperId originalId) ≠
        OCEAction.escalate wrapperId) := by
  have h1 : bot_command_error settings hs
      (CmdError.commandInvokeError wrapperId originalId) =
      OCEAction.escalate originalId := by
    simp [bot_command_error, hlocal, kindOf, hign]
  refine ⟨h1, fun hne => ?_⟩
  rw [h1]
  intro hcon
  exact hne (by injection hcon with h; exact h.symm)

/-- Witness for C5 at concrete input: settings that skip the local-handler
deferral, default ignored errors, wrapper id 1 around original id 2. -/
theorem invoke_error_escalates_original_witness :
    bot_command_error ⟨true, defaultIgnoredErrors, false⟩ ⟨true, true, true⟩
      (CmdError.commandInvokeError 1 2) = OCEAction.escalate 2 ∧
    bot_command_error ⟨true, defaultIgnoredErrors, false⟩ ⟨true, true, true⟩
      (CmdError.commandInvokeError 1 2) ≠ OCEAction.escalate 1 :=
  ⟨(invoke_error_escalates_original _ _ 1 2 (by decide) (by decide)).1,
   (invoke_error_escalates_original _ _ 1 2 (by decide) (by decide)).2 (by decide)⟩

/-- C6: a command error whose class is in the configured `ignored_errors`
produces no action at all: `bot_command_error` returns without escalating
to `add_error` (so the aggregator state and scheduler are untouched) and
without replying to the invocation context. -/
theorem ignorable_error_no_escalation (settings : CommandErrorSettings)
    (hs : LocalHandlers) (e : CmdError)
    (h : kindOf e ∈ settings.ignored_errors) :
    bot_command_error settings hs e = OCEAction.noAction := by
  unfold bot_command_error
  split <;> simp [h]

/-- Witness for C6 at concrete input: a `commands.NotOwner` error under
the default ignored set, with no local handlers registered. -/
theorem ignorable_error_no_escalation_witness :
    kindOf (CmdError.notOwner 7) ∈
      (CommandErrorSettings.mk true defaultIgnoredErrors true).ignored_errors ∧
    bot_command_error ⟨true, defaultIgnoredErrors, true⟩ ⟨false, false, false⟩
      (CmdError.notOwner 7) = OCEAction.noAction :=
  ⟨by decide, ignorable_error_no_escalation _ _ _ (by decide)⟩

/-- C7: for a non-empty signature text of `N` characters, `release_error`
produces exactly `ceil(N / (2000 - overhead))` code-block fragments
(`overhead = cbs = 9`, the code-block markers), each at most 2000
characters; the first fragment becomes the primary embed's description and
the remaining fragments are batched at most 10 embeds per webhook send,
one send per full batch of ten plus a final send for the remainder
(`ceil((k - 1) / 10)` follow-up sends for `k` fragments, order
preserved). -/
theorem release_error_chunking (bot : BotModel) (packet : TracebackData)
    (tb : List Char) (htb : tb ≠ []) :
    (yield_code_chunks tb).length =
      (tb.length + (chunksize - cbs - 1)) / (chunksize - cbs) ∧
    (∀ ch ∈ yield_code_chunks tb, ch.length ≤ chunksize) ∧
    (release_error bot tb packet).map
        (fun r => r.primaryDescription :: r.followupBatches.flatten) =
      some (yield_code_chunks tb) ∧
    (∀ b ∈ ((release_error bot tb packet).map ReleaseResult.followupBatches).getD [],
      b.length ≤ 10) ∧
    (release_error bot tb packet).map (fun r => r.followupBatches.length) =
      some (((yield_code_chunks tb).length - 1 + 9) / 10) := by
  obtain ⟨c, rest, hcr⟩ := yield_code_chunks_cons tb htb
  have hrel := release_error_eq bot tb packet c rest hcr
  refine ⟨yield_code_chunks_len tb, yield_code_chunks_size tb, ?_, ?_, ?_⟩
  · rw [hrel, hcr]
    simp [batchLoop_flatten]
  · rw [hrel]
    intro b hb
    simp only [Option.map_some', Option.getD_some] at hb
    exact batchLoop_size rest [] (by simp) b hb
  · rw [hrel, hcr]
    simp only [Option.map_some', Option.some.injEq, List.length_cons]
    rw [batchLoop_count rest [] (by simp)]
    simp only [List.length_nil]
    omega

/-- Witness for C7 at concrete input: the four-character signature text
`"boom"`, an empty resolution environment and a bare packet. -/
theorem release_error_chunking_witness :
    ("boom".toList ≠ []) ∧
    ((yield_code_chunks "boom".toList).length =
      ("boom".toList.length + (chunksize - cbs - 1)) / (chunksize - cbs) ∧
    (∀ ch ∈ yield_code_chunks "boom".toList, ch.length ≤ chunksize) ∧
    (release_error ⟨[], [], none, "MyBot"⟩ "boom".toList
        ⟨0, 0, none, none, none, none, none⟩).map
        (fun r => r.primaryDescription :: r.followupBatches.flatten) =
      some (yield_code_chunks "boom".toList) ∧
    (∀ b ∈ ((release_error ⟨[], [], none, "MyBot"⟩ "boom".toList
        ⟨0, 0, none, none, none, none, none⟩).map
          ReleaseResult.followupBatches).getD [],
      b.length ≤ 10) ∧
    (release_error ⟨[], [], none, "MyBot"⟩ "boom".toList
        ⟨0, 0, none, none, none, none, none⟩).map
        (fun r => r.followupBatches.length) =
      some (((yield_code_chunks "boom".toList).length - 1 + 9) / 10)) :=
  ⟨by decide, release_error_chunking _ _ _ (by decide)⟩

/-- C8: when the webhook transport fails during `add_error`, the exception
propagates to the caller (there is no `try`/`except` in `add_error`), and
the aggregator entry appended for the packet stays in the `errors`
mapping — the recorded state is not rolled back. -/
theorem transport_failure_preserves_entry (cooldown : Int) (st : ManagerState)
    (rendered cwd : String) (p : TracebackData) (arrival : Int) :
    (add_error_model cooldown false st rendered cwd p arrival).2 = Except.error () ∧
    lookupErrors (add_error_model cooldown false st rendered cwd p arrival).1.errors
        (traceback_key rendered cwd) =
      some (packetsFor st.errors (traceback_key rendered cwd) ++ [p]) := by
  constructor
  · simp [add_error_model]
  · simp only [add_error_model]
    exact lookup_add_self _ _ _

/-- C9: a packet whose guild id does not resolve to a known guild is still
delivered: `release_error` completes (no exception), its metadata block
has no guild field, and the unknown-guild warning is logged. -/
theorem unknown_guild_delivery_succeeds (bot : BotModel) (packet : TracebackData)
    (tb : List Char) (hg : get_guild bot packet.guild = none) (htb : tb ≠ []) :
    (release_error bot tb packet).isSome = true ∧
    (release_error bot tb packet).map (fun r => r.fmtResult.fmt.guild) =
      some none ∧
    (release_error bot tb packet).map (fun r => r.fmtResult.warnedUnknownGuild) =
      some true := by
  obtain ⟨c, rest, hcr⟩ := yield_code_chunks_cons tb htb
  have hrel := release_error_eq bot tb packet c rest hcr
  have hf := release_fmt_unknown_guild bot packet hg
  rw [hrel]
  simp [hf.1, hf.2.1]

/-- Witness for C9 at concrete input: a bot that knows no guilds, a packet
pointing at guild id 5. -/
theorem unknown_guild_delivery_succeeds_witness :
    get_guild ⟨[], [], none, "MyBot"⟩
      (TracebackData.mk 0 0 (some 42) (some 5) (some 9) none none).guild = none ∧
    ("x".toList ≠ []) ∧
    ((release_error ⟨[], [], none, "MyBot"⟩ "x".toList
        ⟨0, 0, some 42, some 5, some 9, none, none⟩).isSome = true ∧
    (release_error ⟨[], [], none, "MyBot"⟩ "x".toList
        ⟨0, 0, some 42, some 5, some 9, none, none⟩).map
        (fun r => r.fmtResult.fmt.guild) = some none ∧
    (release_error ⟨[], [], none, "MyBot"⟩ "x".toList
        ⟨0, 0, some 42, some 5, some 9, none, none⟩).map
        (fun r => r.fmtResult.warnedUnknownGuild) = some true) :=
  ⟨by decide, by decide, unknown_guild_delivery_succeeds _ _ _ (by decide) (by decide)⟩

/-- C10: when the packet's guild id is unresolvable, the metadata omits
not only the guild field but also the channel field, and the actor is not
upgraded to a member/user rendering: it stays the raw mention built from
the id — even when the packet carries a channel id and a non-zero author
id (channel resolution and author upgrading happen only inside the
resolved-guild branch, `manager.py` lines 203-213). -/
theorem unknown_guild_keeps_raw_actor (bot : BotModel) (packet : TracebackData)
    (tb : List Char) (a c : Nat)
    (hg : get_guild bot packet.guild = none) (ha : packet.author = some a)
    (h0 : a ≠ 0) (hc : packet.channel = some c) (htb : tb ≠ []) :
    (release_error bot tb packet).map (fun r => r.fmtResult.fmt.channel) =
      some none ∧
    (release_error bot tb packet).map (fun r => r.fmtResult.fmt.author) =
      some (some (rawMention a)) := by
  obtain ⟨c', rest, hcr⟩ := yield_code_chunks_cons tb htb
  have hrel := release_error_eq bot tb packet c' rest hcr
  have hf := release_fmt_unknown_guild bot packet hg
  have hauth := release_fmt_unknown_guild_author bot packet a hg ha h0
  rw [hrel]
  simp [hf.2.2, hauth]

/-- Witness for C10 at concrete input: the bot's global user cache *does*
know user 42, but the packet's guild id 5 is unknown, so the author still
renders as the raw mention and the channel id 9 is dropped. -/
theorem unknown_guild_keeps_raw_actor_witness :
    get_guild ⟨[], [(42, "Known User")], none, "MyBot"⟩
      (TracebackData.mk 0 0 (some 42) (some 5) (some 9) none none).guild = none ∧
    (TracebackData.mk 0 0 (some 42) (some 5) (some 9) none none).author = some 42 ∧
    (42 ≠ 0) ∧
    (TracebackData.mk 0 0 (some 42) (some 5) (some 9) none none).channel = some 9 ∧
    ("x".toList ≠ []) ∧
    ((release_error ⟨[], [(42, "Known User")], none, "MyBot"⟩ "x".toList
        ⟨0, 0, some 42, some 5, some 9, none, none⟩).map
        (fun r => r.fmtResult.fmt.channel) = some none ∧
    (release_error ⟨[], [(42, "Known User")], none, "MyBot"⟩ "x".toList
        ⟨0, 0, some 42, some 5, some 9, none, none⟩).map
        (fun r => r.fmtResult.fmt.author) = some (some (rawMention 42))) :=
  ⟨by decide, by decide, by decide, by decide, by decide,
   unknown_guild_keeps_raw_actor _ _ _ 42 9 (by decide) (by decide) (by decide)
     (by decide) (by decide)⟩

end ExtDuck
